import Mathlib

/-!
Verification of the prompt-improvement engine of this repository.

The source consists of three Python files: `main.py` and `server.py` share a
"minimal" rule engine `enhance_prompt_structure`, while `auto_improve_main.py`
carries an "extended" one with two more role categories and an extra
explanation checklist.  Strings are modelled as `List Char`; the Python string
primitives the program uses (`str.lower`, `str.strip`, `len(s.split())`,
substring membership `in`) are modelled below on the ASCII fragment the
program manipulates.
-/

set_option maxRecDepth 10000

/-- ASCII whitespace as recognised by Python's `str.strip` and `str.split`
(Unicode whitespace beyond ASCII is not modelled; the program only handles
ASCII text). -/
def pyIsSpace (c : Char) : Bool :=
  c == ' ' || c == '\t' || c == '\n' || c == '\r' || c == '\x0b' || c == '\x0c'

/-- ASCII case folding of one character, as Python's `str.lower` acts on the
basic latin range. -/
def pyLowerChar (c : Char) : Char :=
  if 65 ≤ c.toNat ∧ c.toNat ≤ 90 then Char.ofNat (c.toNat + 32) else c

/-- Python `s.lower()`. -/
def pyLower (l : List Char) : List Char := l.map pyLowerChar

/-- Python `s.strip()`: drop leading and trailing whitespace. -/
def pyStrip (l : List Char) : List Char :=
  ((l.dropWhile pyIsSpace).reverse.dropWhile pyIsSpace).reverse

/-- Auxiliary for `pyWordCount`: counts the maximal non-whitespace runs,
remembering whether we are inside a run. -/
def wordCountAux : Bool → List Char → Nat
  | _, [] => 0
  | inWord, c :: cs =>
    if pyIsSpace c then wordCountAux false cs
    else (if inWord then 0 else 1) + wordCountAux true cs

/-- Python `len(s.split())`: the number of maximal whitespace-separated words. -/
def pyWordCount (l : List Char) : Nat := wordCountAux false l

/-- Does `h` start with `n`? -/
def begMatch : List Char → List Char → Bool
  | [], _ => true
  | _ :: _, [] => false
  | a :: as, b :: bs => a == b && begMatch as bs

/-- Python's substring test `n in h`. -/
def hasSub (n : List Char) : List Char → Bool
  | [] => n.isEmpty
  | b :: bs => begMatch n (b :: bs) || hasSub n bs

/-- Python `any(w in s for w in ws)`. -/
def anyIn (ws : List (List Char)) (s : List Char) : Bool :=
  ws.any (fun w => hasSub w s)

/-! ### A small library about substring occurrence -/

theorem subOfLeft {n a : List Char} (h : n <:+: a) (b : List Char) :
    n <:+: a ++ b := by
  obtain ⟨s, t, hst⟩ := h
  exact ⟨s, t ++ b, by rw [← hst]; simp⟩

theorem subOfRight {n b : List Char} (a : List Char) (h : n <:+: b) :
    n <:+: a ++ b := by
  obtain ⟨s, t, hst⟩ := h
  exact ⟨a ++ s, t, by rw [← hst]; simp⟩

theorem prefToSub {n a : List Char} (h : n <+: a) : n <:+: a := by
  obtain ⟨t, ht⟩ := h
  exact ⟨[], t, by simpa using ht⟩

theorem sufToSub {n a : List Char} (h : n <:+ a) : n <:+: a := by
  obtain ⟨s, hs⟩ := h
  exact ⟨s, [], by simpa using hs⟩

theorem subTrans {a b c : List Char} (h1 : a <:+: b) (h2 : b <:+: c) :
    a <:+: c := by
  obtain ⟨s1, t1, h1⟩ := h1
  obtain ⟨s2, t2, h2⟩ := h2
  refine ⟨s2 ++ s1, t1 ++ t2, ?_⟩
  rw [← h2, ← h1]
  simp

theorem memOfSub {n l : List Char} (h : n <:+: l) {x : Char} (hx : x ∈ n) :
    x ∈ l := by
  obtain ⟨s, t, hst⟩ := h
  rw [← hst]
  simp [hx]

theorem prefConsIff {a b : Char} {as bs : List Char} :
    (a :: as) <+: (b :: bs) ↔ a = b ∧ as <+: bs := by
  constructor
  · rintro ⟨t, ht⟩
    rw [List.cons_append] at ht
    injection ht with h1 h2
    exact ⟨h1, t, h2⟩
  · rintro ⟨rfl, t, ht⟩
    exact ⟨t, by rw [List.cons_append, ht]⟩

theorem begMatch_iff : ∀ (n h : List Char), begMatch n h = true ↔ n <+: h
  | [], h => by
      constructor
      · intro _; exact ⟨h, rfl⟩
      · intro _; rfl
  | a :: as, [] => by
      simp only [begMatch]
      constructor
      · intro hf; exact absurd hf (by decide)
      · rintro ⟨t, ht⟩; exact absurd ht (by simp)
  | a :: as, b :: bs => by
      simp only [begMatch, Bool.and_eq_true, beq_iff_eq]
      rw [begMatch_iff as bs, prefConsIff]

theorem subNilIff {n : List Char} : n <:+: ([] : List Char) ↔ n = [] := by
  constructor
  · rintro ⟨s, t, h⟩
    rcases List.append_eq_nil.mp h with ⟨h1, _⟩
    exact (List.append_eq_nil.mp h1).2
  · rintro rfl
    exact ⟨[], [], rfl⟩

theorem subConsIff {n : List Char} {b : Char} {bs : List Char} :
    n <:+: (b :: bs) ↔ n <+: (b :: bs) ∨ n <:+: bs := by
  constructor
  · rintro ⟨s, t, hst⟩
    cases s with
    | nil => exact Or.inl ⟨t, by simpa using hst⟩
    | cons c s' =>
        rw [List.cons_append] at hst
        injection hst with h1 h2
        exact Or.inr ⟨s', t, h2⟩
  · rintro (⟨t, ht⟩ | ⟨s, t, hst⟩)
    · exact ⟨[], t, by simpa using ht⟩
    · exact ⟨b :: s, t, by rw [← hst]; simp⟩

theorem hasSub_iff : ∀ (n h : List Char), hasSub n h = true ↔ n <:+: h
  | n, [] => by
      simp only [hasSub, List.isEmpty_iff, subNilIff]
  | n, b :: bs => by
      simp only [hasSub, Bool.or_eq_true]
      rw [begMatch_iff, hasSub_iff n bs, subConsIff]

theorem prefAppendCases {p a b : List Char} (h : p <+: a ++ b) :
    p <+: a ∨ ∃ q, p = a ++ q ∧ q <+: b := by
  obtain ⟨t, ht⟩ := h
  rcases List.append_eq_append_iff.mp ht with ⟨a', ha, _⟩ | ⟨c', hp, hd⟩
  · exact Or.inl ⟨a', ha.symm⟩
  · exact Or.inr ⟨c', hp, t, hd.symm⟩

theorem subAppendCases {p a b : List Char} (h : p <:+: a ++ b) :
    p <:+: a ∨ p <:+: b ∨
      ∃ p1 p2, p = p1 ++ p2 ∧ p1 ≠ [] ∧ p2 ≠ [] ∧ p1 <:+ a ∧ p2 <+: b := by
  obtain ⟨s, t, hst⟩ := h
  rcases prefAppendCases ⟨t, hst⟩ with hpa | ⟨q, hq, hqb⟩
  · obtain ⟨t', ht'⟩ := hpa
    exact Or.inl ⟨s, t', ht'⟩
  · rcases List.append_eq_append_iff.mp hq with ⟨a', ha, hp⟩ | ⟨c', hs2, hq2⟩
    · rcases eq_or_ne a' [] with rfl | ha'
      · refine Or.inr (Or.inl ?_)
        obtain ⟨t', ht'⟩ := hqb
        refine ⟨[], t', ?_⟩
        simp only [List.nil_append] at hp ⊢
        rw [hp]
        exact ht'
      · rcases eq_or_ne q [] with rfl | hqn
        · refine Or.inl ?_
          refine ⟨s, [], ?_⟩
          rw [List.append_nil] at hp ⊢
          rw [← hp] at ha
          exact ha.symm
        · exact Or.inr (Or.inr ⟨a', q, hp, ha', hqn, ⟨s, ha.symm⟩, hqb⟩)
    · refine Or.inr (Or.inl ?_)
      obtain ⟨t', ht'⟩ := hqb
      refine ⟨c', t', ?_⟩
      rw [← ht', hq2]

theorem notSubAppend {p a b : List Char} (ha : ¬ p <:+: a) (hb : ¬ p <:+: b)
    (hc : ∀ i, 0 < i → i < p.length → ¬ (p.take i <:+ a) ∨ ¬ (p.drop i <+: b)) :
    ¬ p <:+: a ++ b := by
  intro h
  rcases subAppendCases h with h1 | h2 | ⟨p1, p2, hp, hp1, hp2, hsa, hpb⟩
  · exact ha h1
  · exact hb h2
  · have hi1 : 0 < p1.length := List.length_pos.mpr hp1
    have hi2 : p1.length < p.length := by
      rw [hp, List.length_append]
      have := List.length_pos.mpr hp2
      omega
    have htake : p.take p1.length = p1 := by rw [hp]; simp
    have hdrop : p.drop p1.length = p2 := by rw [hp]; simp
    rcases hc p1.length hi1 hi2 with hx | hx
    · rw [htake] at hx; exact hx hsa
    · rw [hdrop] at hx; exact hx hpb

theorem dropWhileSuf (p : Char → Bool) : ∀ (l : List Char), l.dropWhile p <:+ l
  | [] => ⟨[], rfl⟩
  | c :: t => by
      by_cases h : p c = true
      · obtain ⟨s, hs⟩ := dropWhileSuf p t
        refine ⟨c :: s, ?_⟩
        rw [List.dropWhile_cons, if_pos h, List.cons_append, hs]
      · refine ⟨[], ?_⟩
        rw [List.dropWhile_cons, if_neg h, List.nil_append]

theorem revPref {x l : List Char} (h : x <:+ l.reverse) : x.reverse <+: l := by
  obtain ⟨s, hs⟩ := h
  refine ⟨s.reverse, ?_⟩
  have h2 := congrArg List.reverse hs
  simpa [List.reverse_append] using h2

theorem stripSub (l : List Char) : pyStrip l <:+: l := by
  unfold pyStrip
  have h1 : l.dropWhile pyIsSpace <:+ l := dropWhileSuf _ l
  have h2 : ((l.dropWhile pyIsSpace).reverse.dropWhile pyIsSpace) <:+
      (l.dropWhile pyIsSpace).reverse := dropWhileSuf _ _
  have h3 := revPref h2
  obtain ⟨t, ht⟩ := h3
  obtain ⟨s, hs⟩ := h1
  exact ⟨s, t, by rw [List.append_assoc, ht, hs]⟩

theorem dropWhileAll {p : Char → Bool} :
    ∀ {l : List Char}, (∀ x ∈ l, p x = true) → l.dropWhile p = []
  | [], _ => rfl
  | c :: t, h => by
      have hc := h c (by simp)
      rw [List.dropWhile_cons, if_pos hc]
      exact dropWhileAll (fun x hx => h x (by simp [hx]))

theorem stripNil {l : List Char} (h : ∀ x ∈ l, pyIsSpace x = true) :
    pyStrip l = [] := by
  unfold pyStrip
  rw [dropWhileAll h]
  rfl

theorem lowerSpace {c : Char} (h : pyIsSpace c = true) : pyLowerChar c = c := by
  unfold pyIsSpace at h
  simp only [Bool.or_eq_true, beq_iff_eq] at h
  rcases h with (((((h | h) | h) | h) | h) | h) <;> subst h <;> decide

theorem lowerAllSpace {l : List Char} (h : ∀ x ∈ l, pyIsSpace x = true) :
    ∀ x ∈ pyLower l, pyIsSpace x = true := by
  intro x hx
  unfold pyLower at hx
  obtain ⟨y, hy, rfl⟩ := List.mem_map.mp hx
  rw [lowerSpace (h y hy)]
  exact h y hy

theorem hasSubFalseOfSpace {w s : List Char} (hs : ∀ x ∈ s, pyIsSpace x = true)
    {ch : Char} (hch : ch ∈ w) (hns : pyIsSpace ch = false) :
    hasSub w s = false := by
  rcases hb : hasSub w s with _ | _
  · rfl
  · exfalso
    have hmem := memOfSub ((hasSub_iff w s).mp hb) hch
    rw [hs ch hmem] at hns
    exact absurd hns (by decide)

theorem pyLowerAppend (a b : List Char) :
    pyLower (a ++ b) = pyLower a ++ pyLower b := by
  unfold pyLower
  simp

/-! ### The minimal engine of `main.py` (textually identical in `server.py`) -/

namespace Main

/-- Role prefix of `main.py` line 122. -/
def DEV_ROLE : List Char := ("Act as an expert software developer. ").data

/-- Role prefix of `main.py` line 124. -/
def WRITER_ROLE : List Char := ("Act as a technical writer. ").data

/-- Specificity padding of `main.py` line 128. -/
def PAD : List Char := (". Please provide detailed steps and examples.").data

/-- Context marker of `main.py` line 132. -/
def CTX_HDR : List Char := ("\n\nContext: ").data

/-- Code-format checklist of `main.py` line 136. -/
def CODE_BLOCK : List Char :=
  ("\n\nPlease include:\n- Clear comments explaining the code\n- Error handling where appropriate\n- Example usage").data

/-- Closing constraint of `main.py` line 139. -/
def CLOSING : List Char := ("\n\nEnsure the response is practical and actionable.").data

/-- Developer-role trigger words, `main.py` line 121. -/
def DEV_WORDS : List (List Char) := [("code").data, ("program").data, ("develop").data]

/-- Writer-role trigger words, `main.py` line 123. -/
def WRITER_WORDS : List (List Char) := [("write").data, ("document").data, ("explain").data]

/-- Code-request trigger words, `main.py` line 135. -/
def CODE_WORDS : List (List Char) := [("code").data, ("function").data, ("script").data]

/-- Lines 118-124 of `main.py`: strip the prompt, then the role-injection
if/elif chain, each condition tested against the lower-cased original prompt. -/
def stage_role (prompt : List Char) : List Char :=
  if anyIn DEV_WORDS (pyLower prompt) then DEV_ROLE ++ pyStrip prompt
  else if anyIn WRITER_WORDS (pyLower prompt) then WRITER_ROLE ++ pyStrip prompt
  else pyStrip prompt

/-- Lines 127-128 of `main.py`: pad buffers under ten words. -/
def stage_pad (e : List Char) : List Char :=
  if pyWordCount e < 10 then e ++ PAD else e

/-- Lines 131-132 of `main.py`: append the context block when the context
string is truthy (non-empty). -/
def stage_ctx (context e : List Char) : List Char :=
  if context.isEmpty then e else e ++ (CTX_HDR ++ context)

/-- Lines 135-136 of `main.py`: append the code-format checklist when the
lower-cased accumulated buffer mentions a code keyword. -/
def stage_code (e : List Char) : List Char :=
  if anyIn CODE_WORDS (pyLower e) then e ++ CODE_BLOCK else e

/-- `enhance_prompt_structure` of `main.py` lines 114-141 (and `server.py`
lines 70-97): the ordered pipeline followed by the unconditional closing
constraint.  The `improvements` argument is accepted and never used, exactly
as in the source. -/
def enhance_prompt_structure (prompt context : List Char)
    (improvements : List (List Char)) : List Char :=
  stage_code (stage_ctx context (stage_pad (stage_role prompt))) ++ CLOSING

/-- Analysis note of `main.py` line 98. -/
def VAGUE_NOTE : List Char := ("Make the request more specific and detailed").data

/-- Analysis note of `main.py` line 102. -/
def CTX_NOTE : List Char := ("Consider adding context about the technology or domain").data

/-- Analysis note of `main.py` line 106. -/
def OBJ_NOTE : List Char := ("Specify what action you want performed").data

/-- Technology keywords, `main.py` line 101. -/
def TECH_WORDS : List (List Char) :=
  [("python").data, ("javascript").data, ("web").data, ("app").data, ("code").data]

/-- Objective keywords, `main.py` line 105. -/
def OBJ_WORDS : List (List Char) :=
  [("create").data, ("build").data, ("write").data, ("generate").data,
   ("help").data, ("explain").data, ("show").data]

/-- `improve_prompt_locally` of `main.py` lines 88-111: the loaded
instructions are passed in (the source fetches them and never uses them),
the three analysis notes are collected, and the engine is applied. -/
def improve_prompt_locally (instructions user_prompt context : List Char) :
    List Char :=
  let i1 : List (List Char) :=
    if pyWordCount user_prompt < 5 then [VAGUE_NOTE] else []
  let i2 : List (List Char) :=
    if context.isEmpty && !(anyIn TECH_WORDS (pyLower user_prompt)) then
      i1 ++ [CTX_NOTE] else i1
  let i3 : List (List Char) :=
    if !(anyIn OBJ_WORDS (pyLower user_prompt)) then i2 ++ [OBJ_NOTE] else i2
  enhance_prompt_structure user_prompt context i3

/-- Error payload of `main.py` line 69. -/
def ERR_NO_PROMPT : List Char := ("Error: No prompt provided to improve.").data

/-- Lines 63-74 of `main.py`'s `handle_call_tool`, `improve_prompt` branch.
Absent arguments default to the empty string (`arguments.get(_, "")`); the
engine is a parameter so that (non-)invocation is expressible. -/
def improve_prompt_branch (engine : List Char → List Char → List Char)
    (user_prompt context : Option (List Char)) : List Char :=
  let up := user_prompt.getD []
  let c := context.getD []
  if up.isEmpty then ERR_NO_PROMPT else engine up c

/-- The `improve_prompt` branch instantiated with the real engine. -/
def handle_improve_prompt (instructions : List Char)
    (user_prompt context : Option (List Char)) : List Char :=
  improve_prompt_branch (improve_prompt_locally instructions) user_prompt context

/-- `read_improvement_prompt` of `main.py` lines 23-28 (textually identical
in `server.py` lines 21-26 and `auto_improve_main.py` lines 23-28).  The
filesystem is abstracted as `none` (file absent) or `some r` (file present,
`r` the outcome of reading it, which may be an I/O fault). -/
def read_improvement_prompt (fs : Option (Except (List Char) (List Char))) :
    Except (List Char) (List Char) :=
  match fs with
  | none =>
      Except.ok (("Improve the following prompt to be clearer and more effective:").data)
  | some r => r

end Main

/-! ### The extended engine of `auto_improve_main.py` -/

namespace Auto

/-- Role prefix of `auto_improve_main.py` line 157. -/
def DEV_ROLE : List Char := ("Act as an expert software developer. ").data

/-- Role prefix of `auto_improve_main.py` line 159. -/
def WRITER_ROLE : List Char := ("Act as a technical writer. ").data

/-- Role prefix of `auto_improve_main.py` line 161. -/
def DESIGN_ROLE : List Char := ("Act as a UX/UI designer. ").data

/-- Role prefix of `auto_improve_main.py` line 163. -/
def ANALYST_ROLE : List Char := ("Act as a data analyst. ").data

/-- Specificity padding of `auto_improve_main.py` line 167. -/
def PAD : List Char := (". Please provide detailed steps, examples, and explanations.").data

/-- Context marker of `auto_improve_main.py` line 171. -/
def CTX_HDR : List Char := ("\n\nContext: ").data

/-- Code-format checklist of `auto_improve_main.py` line 175. -/
def CODE_BLOCK : List Char :=
  ("\n\nPlease include:\n- Clear comments explaining the code\n- Error handling where appropriate\n- Example usage\n- Brief explanation of the approach").data

/-- Explanation-format checklist of `auto_improve_main.py` line 179. -/
def EXPLAIN_BLOCK : List Char :=
  ("\n\nPlease structure your response with:\n- Clear introduction\n- Step-by-step explanation\n- Practical examples\n- Summary of key points").data

/-- Closing constraint of `auto_improve_main.py` line 182. -/
def CLOSING : List Char :=
  ("\n\nEnsure the response is practical, actionable, and easy to understand.").data

/-- Developer-role trigger words, `auto_improve_main.py` line 156. -/
def DEV_WORDS : List (List Char) := [("code").data, ("program").data, ("develop").data]

/-- Writer-role trigger words, `auto_improve_main.py` line 158. -/
def WRITER_WORDS : List (List Char) := [("write").data, ("document").data, ("explain").data]

/-- Designer-role trigger words, `auto_improve_main.py` line 160. -/
def DESIGN_WORDS : List (List Char) := [("design").data, ("ui").data, ("ux").data]

/-- Analyst-role trigger words, `auto_improve_main.py` line 162. -/
def ANALYST_WORDS : List (List Char) := [("data").data, ("analysis").data, ("statistics").data]

/-- Code-request trigger words, `auto_improve_main.py` line 174. -/
def CODE_WORDS : List (List Char) :=
  [("code").data, ("function").data, ("script").data, ("program").data]

/-- Explanation trigger words, `auto_improve_main.py` line 178. -/
def EXPLAIN_WORDS : List (List Char) :=
  [("explain").data, ("describe").data, ("what is").data, ("how does").data]

/-- Lines 153-163 of `auto_improve_main.py`: strip, then the four-way
role-injection if/elif chain, each condition tested against the lower-cased
original prompt. -/
def stage_role (prompt : List Char) : List Char :=
  if anyIn DEV_WORDS (pyLower prompt) then DEV_ROLE ++ pyStrip prompt
  else if anyIn WRITER_WORDS (pyLower prompt) then WRITER_ROLE ++ pyStrip prompt
  else if anyIn DESIGN_WORDS (pyLower prompt) then DESIGN_ROLE ++ pyStrip prompt
  else if anyIn ANALYST_WORDS (pyLower prompt) then ANALYST_ROLE ++ pyStrip prompt
  else pyStrip prompt

/-- Lines 166-167 of `auto_improve_main.py`: pad buffers under ten words. -/
def stage_pad (e : List Char) : List Char :=
  if pyWordCount e < 10 then e ++ PAD else e

/-- Lines 170-171 of `auto_improve_main.py`: append the context block when
the context string is truthy (non-empty). -/
def stage_ctx (context e : List Char) : List Char :=
  if context.isEmpty then e else e ++ (CTX_HDR ++ context)

/-- Lines 174-175 of `auto_improve_main.py`: append the code-format checklist
when the lower-cased accumulated buffer mentions a code keyword. -/
def stage_code (e : List Char) : List Char :=
  if anyIn CODE_WORDS (pyLower e) then e ++ CODE_BLOCK else e

/-- Lines 178-179 of `auto_improve_main.py`: append the explanation-format
checklist when the lower-cased accumulated buffer mentions an explanation
keyword. -/
def stage_explain (e : List Char) : List Char :=
  if anyIn EXPLAIN_WORDS (pyLower e) then e ++ EXPLAIN_BLOCK else e

/-- `enhance_prompt_structure` of `auto_improve_main.py` lines 149-184: the
ordered pipeline followed by the unconditional closing constraint.  The
`improvements` argument is accepted and never used, exactly as in the
source. -/
def enhance_prompt_structure (prompt context : List Char)
    (improvements : List (List Char)) : List Char :=
  stage_explain (stage_code (stage_ctx context (stage_pad (stage_role prompt)))) ++ CLOSING

/-- `improve_prompt_locally` of `auto_improve_main.py` lines 123-146,
identical in behaviour to the one in `main.py`. -/
def improve_prompt_locally (instructions user_prompt context : List Char) :
    List Char :=
  let i1 : List (List Char) :=
    if pyWordCount user_prompt < 5 then [Main.VAGUE_NOTE] else []
  let i2 : List (List Char) :=
    if context.isEmpty && !(anyIn Main.TECH_WORDS (pyLower user_prompt)) then
      i1 ++ [Main.CTX_NOTE] else i1
  let i3 : List (List Char) :=
    if !(anyIn Main.OBJ_WORDS (pyLower user_prompt)) then i2 ++ [Main.OBJ_NOTE] else i2
  enhance_prompt_structure user_prompt context i3

/-- Error payload of `auto_improve_main.py` line 103. -/
def ERR_NO_MESSAGE : List Char := ("Error: No message provided to improve.").data

/-- Composite payload header of `auto_improve_main.py` line 110. -/
def IMPROVED_HDR : List Char := ("IMPROVED PROMPT:\n\n").data

/-- Composite payload separator of `auto_improve_main.py` line 110. -/
def ORIG_SEP : List Char := ("\n\n---\n\nORIGINAL: ").data

/-- Lines 97-111 of `auto_improve_main.py`'s `handle_call_tool`,
`auto_improve_all_prompts` branch.  An absent argument defaults to the empty
string; the engine is called with empty context; the engine is a parameter
so that (non-)invocation is expressible. -/
def auto_improve_branch (engine : List Char → List Char → List Char)
    (user_message : Option (List Char)) : List Char :=
  let um := user_message.getD []
  if um.isEmpty then ERR_NO_MESSAGE
  else IMPROVED_HDR ++ engine um [] ++ ORIG_SEP ++ um

end Auto

/-- Modelled from the spec's role-exclusivity wording (minimal variant): the
single role prefix chosen by first-match priority, developer triggers before
writer triggers, each tested by case-insensitive substring containment
against the original, untrimmed prompt. -/
def roleChoiceSpecMin (prompt : List Char) : List Char :=
  if anyIn Main.DEV_WORDS (pyLower prompt) then Main.DEV_ROLE
  else if anyIn Main.WRITER_WORDS (pyLower prompt) then Main.WRITER_ROLE
  else []

/-- Modelled from the spec's role-exclusivity wording (extended variant): the
single role prefix chosen by first-match priority — developer, then writer,
then designer, then analyst triggers — each tested by case-insensitive
substring containment against the original, untrimmed prompt. -/
def roleChoiceSpecExt (prompt : List Char) : List Char :=
  if anyIn Auto.DEV_WORDS (pyLower prompt) then Auto.DEV_ROLE
  else if anyIn Auto.WRITER_WORDS (pyLower prompt) then Auto.WRITER_ROLE
  else if anyIn Auto.DESIGN_WORDS (pyLower prompt) then Auto.DESIGN_ROLE
  else if anyIn Auto.ANALYST_WORDS (pyLower prompt) then Auto.ANALYST_ROLE
  else []

/-! ### Plumbing: each later stage only appends to the buffer -/

theorem extendTrans {x y z : List Char} (h1 : ∃ r, y = x ++ r)
    (h2 : ∃ r, z = y ++ r) : ∃ r, z = x ++ r := by
  obtain ⟨r1, hr1⟩ := h1
  obtain ⟨r2, hr2⟩ := h2
  exact ⟨r1 ++ r2, by rw [hr2, hr1, List.append_assoc]⟩

theorem mainPadExtends (e : List Char) : ∃ r, Main.stage_pad e = e ++ r := by
  unfold Main.stage_pad
  split
  · exact ⟨Main.PAD, rfl⟩
  · exact ⟨[], (List.append_nil e).symm⟩

theorem mainCtxExtends (c e : List Char) : ∃ r, Main.stage_ctx c e = e ++ r := by
  unfold Main.stage_ctx
  split
  · exact ⟨[], (List.append_nil e).symm⟩
  · exact ⟨Main.CTX_HDR ++ c, rfl⟩

theorem mainCodeExtends (e : List Char) : ∃ r, Main.stage_code e = e ++ r := by
  unfold Main.stage_code
  split
  · exact ⟨Main.CODE_BLOCK, rfl⟩
  · exact ⟨[], (List.append_nil e).symm⟩

theorem autoPadExtends (e : List Char) : ∃ r, Auto.stage_pad e = e ++ r := by
  unfold Auto.stage_pad
  split
  · exact ⟨Auto.PAD, rfl⟩
  · exact ⟨[], (List.append_nil e).symm⟩

theorem autoCtxExtends (c e : List Char) : ∃ r, Auto.stage_ctx c e = e ++ r := by
  unfold Auto.stage_ctx
  split
  · exact ⟨[], (List.append_nil e).symm⟩
  · exact ⟨Auto.CTX_HDR ++ c, rfl⟩

theorem autoCodeExtends (e : List Char) : ∃ r, Auto.stage_code e = e ++ r := by
  unfold Auto.stage_code
  split
  · exact ⟨Auto.CODE_BLOCK, rfl⟩
  · exact ⟨[], (List.append_nil e).symm⟩

theorem autoExplainExtends (e : List Char) : ∃ r, Auto.stage_explain e = e ++ r := by
  unfold Auto.stage_explain
  split
  · exact ⟨Auto.EXPLAIN_BLOCK, rfl⟩
  · exact ⟨[], (List.append_nil e).symm⟩

theorem mainEnhanceDecomp (p c : List Char) (imps : List (List Char)) :
    ∃ r, Main.enhance_prompt_structure p c imps = Main.stage_role p ++ r := by
  unfold Main.enhance_prompt_structure
  have h1 := mainPadExtends (Main.stage_role p)
  have h2 := extendTrans h1 (mainCtxExtends c _)
  have h3 := extendTrans h2 (mainCodeExtends _)
  obtain ⟨r, hr⟩ := h3
  exact ⟨r ++ Main.CLOSING, by rw [hr, List.append_assoc]⟩

theorem autoEnhanceDecomp (p c : List Char) (imps : List (List Char)) :
    ∃ r, Auto.enhance_prompt_structure p c imps = Auto.stage_role p ++ r := by
  unfold Auto.enhance_prompt_structure
  have h1 := autoPadExtends (Auto.stage_role p)
  have h2 := extendTrans h1 (autoCtxExtends c _)
  have h3 := extendTrans h2 (autoCodeExtends _)
  have h4 := extendTrans h3 (autoExplainExtends _)
  obtain ⟨r, hr⟩ := h4
  exact ⟨r ++ Auto.CLOSING, by rw [hr, List.append_assoc]⟩

theorem mainStageRoleEq (p : List Char) :
    Main.stage_role p = roleChoiceSpecMin p ++ pyStrip p := by
  unfold Main.stage_role roleChoiceSpecMin
  by_cases h1 : anyIn Main.DEV_WORDS (pyLower p) = true
  · simp [h1]
  · by_cases h2 : anyIn Main.WRITER_WORDS (pyLower p) = true
    · simp [h1, h2]
    · simp [h1, h2]

theorem autoStageRoleEq (p : List Char) :
    Auto.stage_role p = roleChoiceSpecExt p ++ pyStrip p := by
  unfold Auto.stage_role roleChoiceSpecExt
  by_cases h1 : anyIn Auto.DEV_WORDS (pyLower p) = true
  · simp [h1]
  · by_cases h2 : anyIn Auto.WRITER_WORDS (pyLower p) = true
    · simp [h1, h2]
    · by_cases h3 : anyIn Auto.DESIGN_WORDS (pyLower p) = true
      · simp [h1, h2, h3]
      · by_cases h4 : anyIn Auto.ANALYST_WORDS (pyLower p) = true
        · simp [h1, h2, h3, h4]
        · simp [h1, h2, h3, h4]

/-! ### The claims -/

/-- C3: each engine injects at most one role-prefix sentence, chosen by
first-match priority — developer, then writer, then designer, then analyst
triggers (the minimal variant has only the first two categories) — each
tested as case-insensitive substring containment against the original,
untrimmed, lower-cased prompt: the output is exactly the chosen prefix,
followed by the stripped prompt, followed by the later stages' appendages,
and the chosen prefix is one of the four role sentences or empty. -/
theorem claim3_role_exclusivity (p c : List Char) (imps : List (List Char)) :
    (∃ r, Auto.enhance_prompt_structure p c imps =
        roleChoiceSpecExt p ++ (pyStrip p ++ r)) ∧
    (∃ r, Main.enhance_prompt_structure p c imps =
        roleChoiceSpecMin p ++ (pyStrip p ++ r)) ∧
    (roleChoiceSpecExt p = [] ∨ roleChoiceSpecExt p = Auto.DEV_ROLE ∨
      roleChoiceSpecExt p = Auto.WRITER_ROLE ∨
      roleChoiceSpecExt p = Auto.DESIGN_ROLE ∨
      roleChoiceSpecExt p = Auto.ANALYST_ROLE) := by
  refine ⟨?_, ?_, ?_⟩
  · obtain ⟨r, hr⟩ := autoEnhanceDecomp p c imps
    rw [autoStageRoleEq] at hr
    exact ⟨r, by rw [hr]; exact List.append_assoc _ _ _⟩
  · obtain ⟨r, hr⟩ := mainEnhanceDecomp p c imps
    rw [mainStageRoleEq] at hr
    exact ⟨r, by rw [hr]; exact List.append_assoc _ _ _⟩
  · unfold roleChoiceSpecExt
    by_cases h1 : anyIn Auto.DEV_WORDS (pyLower p) = true <;>
      by_cases h2 : anyIn Auto.WRITER_WORDS (pyLower p) = true <;>
        by_cases h3 : anyIn Auto.DESIGN_WORDS (pyLower p) = true <;>
          by_cases h4 : anyIn Auto.ANALYST_WORDS (pyLower p) = true <;>
            simp [h1, h2, h3, h4]

/-- The closing constraint sentence of the minimal variant. -/
def CLOSING_SENT_MIN : List Char :=
  ("Ensure the response is practical and actionable.").data

/-- The closing constraint sentence of the extended variant. -/
def CLOSING_SENT_EXT : List Char :=
  ("Ensure the response is practical, actionable, and easy to understand.").data

theorem sufAppendOfSuf {x b : List Char} (a : List Char) (h : x <:+ b) :
    x <:+ a ++ b := by
  obtain ⟨s, hs⟩ := h
  exact ⟨a ++ s, by rw [List.append_assoc, hs]⟩

theorem appendNeNilRight {x c : List Char} (hc : c ≠ []) : x ++ c ≠ [] := by
  intro h
  exact hc (List.append_eq_nil.mp h).2

/-- C4: for every prompt, context and improvements list, the output of both
engine variants ends with the fixed closing constraint sentence, and for
every non-empty prompt the output is a non-empty string. -/
theorem claim4_idempotent_closing (p c : List Char) (imps : List (List Char)) :
    CLOSING_SENT_MIN <:+ Main.enhance_prompt_structure p c imps ∧
    CLOSING_SENT_EXT <:+ Auto.enhance_prompt_structure p c imps ∧
    (p ≠ [] → Main.enhance_prompt_structure p c imps ≠ [] ∧
              Auto.enhance_prompt_structure p c imps ≠ []) := by
  refine ⟨?_, ?_, fun _ => ⟨?_, ?_⟩⟩
  · unfold Main.enhance_prompt_structure
    exact sufAppendOfSuf _ ⟨('\n' :: '\n' :: []), rfl⟩
  · unfold Auto.enhance_prompt_structure
    exact sufAppendOfSuf _ ⟨('\n' :: '\n' :: []), rfl⟩
  · unfold Main.enhance_prompt_structure
    exact appendNeNilRight (by decide)
  · unfold Auto.enhance_prompt_structure
    exact appendNeNilRight (by decide)

/-- C4 witness: a concrete non-empty prompt has a non-empty output. -/
theorem claim4_witness :
    ("hi").data ≠ ([] : List Char) ∧
    Main.enhance_prompt_structure ("hi").data [] [] ≠ [] ∧
    Auto.enhance_prompt_structure ("hi").data [] [] ≠ [] :=
  ⟨by decide, (claim4_idempotent_closing ("hi").data [] []).2.2 (by decide)⟩

/-- C7: when the `improvement_prompt.md` resource is absent, the loader
returns exactly the default instruction string, wrapped as a normal result,
not an error. -/
theorem claim7_default_instructions :
    Main.read_improvement_prompt none =
      Except.ok (("Improve the following prompt to be clearer and more effective:").data) :=
  rfl

/-- C6: when `improve_prompt` is called with an absent or empty
`user_prompt`, the delivery boundary returns the literal error text
"Error: No prompt provided to improve." and the engine is not invoked: the
result does not depend on the engine at all. -/
theorem claim6_missing_prompt
    (engine engine2 : List Char → List Char → List Char)
    (up c : Option (List Char)) (h : (up.getD []).isEmpty = true) :
    Main.improve_prompt_branch engine up c = Main.ERR_NO_PROMPT ∧
    Main.improve_prompt_branch engine up c =
      Main.improve_prompt_branch engine2 up c := by
  refine ⟨?_, ?_⟩ <;> simp [Main.improve_prompt_branch, h]

/-- C6 witness: an absent user_prompt yields the error text. -/
theorem claim6_witness :
    Main.improve_prompt_branch (fun a _ => a) none none = Main.ERR_NO_PROMPT :=
  (claim6_missing_prompt (fun a _ => a) (fun _ b => b) none none rfl).1

/-- C10: when `auto_improve_all_prompts` is called with an absent or empty
`user_message`, the boundary returns the literal error text
"Error: No message provided to improve." — a different message from the
`improve_prompt` error text — and the engine is not invoked. -/
theorem claim10_missing_message
    (engine engine2 : List Char → List Char → List Char)
    (um : Option (List Char)) (h : (um.getD []).isEmpty = true) :
    Auto.auto_improve_branch engine um = Auto.ERR_NO_MESSAGE ∧
    Auto.ERR_NO_MESSAGE ≠ Main.ERR_NO_PROMPT ∧
    Auto.auto_improve_branch engine um =
      Auto.auto_improve_branch engine2 um := by
  refine ⟨?_, by decide, ?_⟩ <;> simp [Auto.auto_improve_branch, h]

/-- C10 witness: an absent user_message yields the error text. -/
theorem claim10_witness :
    Auto.auto_improve_branch (fun a _ => a) none = Auto.ERR_NO_MESSAGE :=
  (claim10_missing_message (fun a _ => a) (fun _ b => b) none rfl).1

/-- C1 counterexample: for prompt "write a function" with empty context, the
minimal engine's output does not begin with the developer-role sentence the
claim asserts — none of the developer triggers "code", "program", "develop"
occur in the prompt, so the writer role is chosen instead. -/
theorem claim1_counterexample :
    ¬ (("Act as an expert software developer. write a function").data <+:
        Main.enhance_prompt_structure ("write a function").data [] []) := by
  decide

/-- C1 (amended): for prompt "write a function" and empty context, the
minimal engine's output is exactly the technical-writer role sentence
followed by the prompt, the specificity padding (the buffer has eight words,
fewer than ten), the code-format checklist (the buffer contains "function"),
and the closing constraint sentence. -/
theorem claim1_amended :
    Main.enhance_prompt_structure ("write a function").data [] [] =
      ("Act as a technical writer. write a function").data ++
        Main.PAD ++ Main.CODE_BLOCK ++ Main.CLOSING := by
  decide

/-- C5: Example 2 of the spec, extended variant: for prompt
"Explain how garbage collection works" and context "Java backend" the output
starts with the writer-role prefix, contains no specificity-padding sentence
(the buffer after role injection has exactly ten words), contains the
substring "Context: Java backend", contains the explanation-format
checklist, and ends with the closing constraint sentence. -/
theorem claim5_example2 :
    (("Act as a technical writer. ").data <+:
      Auto.enhance_prompt_structure ("Explain how garbage collection works").data
        ("Java backend").data []) ∧
    ¬ (Auto.PAD <:+:
      Auto.enhance_prompt_structure ("Explain how garbage collection works").data
        ("Java backend").data []) ∧
    (("Context: Java backend").data <:+:
      Auto.enhance_prompt_structure ("Explain how garbage collection works").data
        ("Java backend").data []) ∧
    (Auto.EXPLAIN_BLOCK <:+:
      Auto.enhance_prompt_structure ("Explain how garbage collection works").data
        ("Java backend").data []) ∧
    (CLOSING_SENT_EXT <:+
      Auto.enhance_prompt_structure ("Explain how garbage collection works").data
        ("Java backend").data []) := by
  refine ⟨by decide, by decide, by decide, by decide, by decide⟩

/-- C8 counterexample: the extended code checklist does end with the line
"- Brief explanation of the approach", but that line does not contain the
substring "explain" — "explanation" has no i after "expla" — so the
mechanism the claim names cannot be what satisfies the next stage's test. -/
theorem claim8_counterexample :
    Auto.CODE_BLOCK =
      Main.CODE_BLOCK ++ ("\n- Brief explanation of the approach").data ∧
    ¬ (("explain").data <:+: ("\n- Brief explanation of the approach").data) := by
  exact ⟨rfl, by decide⟩

/-- C8 (amended): in the extended variant, whenever the code-format checklist
is appended (the lower-cased accumulated buffer matches a code keyword), the
explanation-format checklist is appended too, because the appended checklist
line "- Clear comments explaining the code" puts the substring "explain"
(inside "explaining") into the buffer, satisfying the next stage's keyword
test. -/
theorem claim8_amended (p c : List Char) (imps : List (List Char))
    (h : anyIn Auto.CODE_WORDS
        (pyLower (Auto.stage_ctx c (Auto.stage_pad (Auto.stage_role p)))) = true) :
    ∃ pre, Auto.enhance_prompt_structure p c imps =
      (pre ++ Auto.EXPLAIN_BLOCK) ++ Auto.CLOSING := by
  have h4 : Auto.stage_code (Auto.stage_ctx c (Auto.stage_pad (Auto.stage_role p))) =
      Auto.stage_ctx c (Auto.stage_pad (Auto.stage_role p)) ++ Auto.CODE_BLOCK := by
    unfold Auto.stage_code
    rw [if_pos h]
  have h5 : anyIn Auto.EXPLAIN_WORDS
      (pyLower (Auto.stage_ctx c (Auto.stage_pad (Auto.stage_role p)) ++
        Auto.CODE_BLOCK)) = true := by
    unfold anyIn
    simp only [Auto.EXPLAIN_WORDS, List.any_cons, Bool.or_eq_true]
    left
    refine (hasSub_iff _ _).mpr ?_
    rw [pyLowerAppend]
    exact subOfRight _ (by decide)
  refine ⟨Auto.stage_ctx c (Auto.stage_pad (Auto.stage_role p)) ++ Auto.CODE_BLOCK, ?_⟩
  unfold Auto.enhance_prompt_structure Auto.stage_explain
  rw [h4, if_pos h5]

/-- C8 witness: the prompt "code" triggers the code checklist, and the output
indeed ends with the explanation checklist before the closing block. -/
theorem claim8_witness :
    ∃ pre, Auto.enhance_prompt_structure ("code").data [] [] =
      (pre ++ Auto.EXPLAIN_BLOCK) ++ Auto.CLOSING :=
  claim8_amended ("code").data [] [] (by decide)

theorem anyInFalseOfSpace {ws : List (List Char)} {s : List Char}
    (hs : ∀ x ∈ s, pyIsSpace x = true)
    (hws : ∀ w ∈ ws, ∃ ch ∈ w, pyIsSpace ch = false) :
    anyIn ws s = false := by
  unfold anyIn
  rw [List.any_eq_false]
  intro w hw
  obtain ⟨ch, hch, hns⟩ := hws w hw
  rw [hasSubFalseOfSpace hs hch hns]
  simp

/-- C9: a non-empty user_prompt consisting only of whitespace passes the
delivery boundary's emptiness check; the minimal engine is invoked on it
and, with empty context, returns exactly the padding sentence followed by
the closing block — an output beginning with ". " rather than any prompt
text — instead of the error payload. -/
theorem claim9_whitespace_prompt (instructions p : List Char)
    (h1 : p ≠ []) (h2 : ∀ ch ∈ p, pyIsSpace ch = true) :
    Main.handle_improve_prompt instructions (some p) (some []) =
      Main.PAD ++ Main.CLOSING ∧
    Main.handle_improve_prompt instructions (some p) (some []) ≠
      Main.ERR_NO_PROMPT ∧
    ('.' :: ' ' :: []) <+:
      Main.handle_improve_prompt instructions (some p) (some []) := by
  have hne : p.isEmpty = false := by
    cases p with
    | nil => exact absurd rfl h1
    | cons c t => rfl
  have hlow : ∀ x ∈ pyLower p, pyIsSpace x = true := lowerAllSpace h2
  have hdev : anyIn Main.DEV_WORDS (pyLower p) = false :=
    anyInFalseOfSpace hlow (by decide)
  have hwri : anyIn Main.WRITER_WORDS (pyLower p) = false :=
    anyInFalseOfSpace hlow (by decide)
  have hrole : Main.stage_role p = [] := by
    unfold Main.stage_role
    simp [hdev, hwri, stripNil h2]
  have key : Main.handle_improve_prompt instructions (some p) (some []) =
      Main.PAD ++ Main.CLOSING := by
    unfold Main.handle_improve_prompt Main.improve_prompt_branch
      Main.improve_prompt_locally Main.enhance_prompt_structure
    simp only [Option.getD_some, hne, Bool.false_eq_true, if_false]
    rw [hrole]
    decide
  refine ⟨key, ?_, ?_⟩
  · rw [key]; decide
  · rw [key]; decide

/-- C9 witness: a single-space prompt yields the degenerate output. -/
theorem claim9_witness :
    (' ' :: []) ≠ ([] : List Char) ∧
    Main.handle_improve_prompt [] (some (' ' :: [])) (some []) =
      Main.PAD ++ Main.CLOSING :=
  ⟨by decide, (claim9_whitespace_prompt [] (' ' :: []) (by decide) (by decide)).1⟩

/-- The bare context marker tested by the claim. -/
def NCTX : List Char := ("Context:").data

/-- The context marker with its trailing space, as written into the output. -/
def CTX_MARK : List Char := ("Context: ").data

theorem nctxLen : NCTX.length = 8 := rfl

theorem notSubRolePre {s r : List Char} (hs : ¬ NCTX <:+: s)
    (hr : ¬ NCTX <:+: r)
    (hcross : ∀ i, i < 8 → 0 < i → ¬ (NCTX.take i <:+ r)) :
    ¬ NCTX <:+: r ++ s := by
  refine notSubAppend hr hs ?_
  intro i hpos hlt
  rw [nctxLen] at hlt
  exact Or.inl (hcross i hlt hpos)

theorem notSubBlockApp {e b : List Char} (he : ¬ NCTX <:+: e)
    (hb : ¬ NCTX <:+: b)
    (hcross : ∀ i, i < 8 → 0 < i → ¬ (NCTX.drop i <+: b)) :
    ¬ NCTX <:+: e ++ b := by
  refine notSubAppend he hb ?_
  intro i hpos hlt
  rw [nctxLen] at hlt
  exact Or.inr (hcross i hlt hpos)

theorem noCtxStageRoleMin {p : List Char} (hp : ¬ NCTX <:+: p) :
    ¬ NCTX <:+: Main.stage_role p := by
  have hstrip : ¬ NCTX <:+: pyStrip p := fun h => hp (subTrans h (stripSub p))
  unfold Main.stage_role
  split
  · exact notSubRolePre hstrip (by decide) (by decide)
  · split
    · exact notSubRolePre hstrip (by decide) (by decide)
    · exact hstrip

theorem noCtxStageRoleExt {p : List Char} (hp : ¬ NCTX <:+: p) :
    ¬ NCTX <:+: Auto.stage_role p := by
  have hstrip : ¬ NCTX <:+: pyStrip p := fun h => hp (subTrans h (stripSub p))
  unfold Auto.stage_role
  split
  · exact notSubRolePre hstrip (by decide) (by decide)
  · split
    · exact notSubRolePre hstrip (by decide) (by decide)
    · split
      · exact notSubRolePre hstrip (by decide) (by decide)
      · split
        · exact notSubRolePre hstrip (by decide) (by decide)
        · exact hstrip

theorem noCtxMin (p : List Char) (imps : List (List Char))
    (hp : ¬ NCTX <:+: p) :
    ¬ NCTX <:+: Main.enhance_prompt_structure p [] imps := by
  unfold Main.enhance_prompt_structure
  have h1 : ¬ NCTX <:+: Main.stage_pad (Main.stage_role p) := by
    unfold Main.stage_pad
    split
    · exact notSubBlockApp (noCtxStageRoleMin hp) (by decide) (by decide)
    · exact noCtxStageRoleMin hp
  have h2 : ¬ NCTX <:+:
      Main.stage_code (Main.stage_ctx [] (Main.stage_pad (Main.stage_role p))) := by
    have hctx : Main.stage_ctx [] (Main.stage_pad (Main.stage_role p)) =
        Main.stage_pad (Main.stage_role p) := rfl
    rw [hctx]
    unfold Main.stage_code
    split
    · exact notSubBlockApp h1 (by decide) (by decide)
    · exact h1
  exact notSubBlockApp h2 (by decide) (by decide)

theorem noCtxExt (p : List Char) (imps : List (List Char))
    (hp : ¬ NCTX <:+: p) :
    ¬ NCTX <:+: Auto.enhance_prompt_structure p [] imps := by
  unfold Auto.enhance_prompt_structure
  have h1 : ¬ NCTX <:+: Auto.stage_pad (Auto.stage_role p) := by
    unfold Auto.stage_pad
    split
    · exact notSubBlockApp (noCtxStageRoleExt hp) (by decide) (by decide)
    · exact noCtxStageRoleExt hp
  have h2 : ¬ NCTX <:+:
      Auto.stage_code (Auto.stage_ctx [] (Auto.stage_pad (Auto.stage_role p))) := by
    have hctx : Auto.stage_ctx [] (Auto.stage_pad (Auto.stage_role p)) =
        Auto.stage_pad (Auto.stage_role p) := rfl
    rw [hctx]
    unfold Auto.stage_code
    split
    · exact notSubBlockApp h1 (by decide) (by decide)
    · exact h1
  have h3 : ¬ NCTX <:+:
      Auto.stage_explain (Auto.stage_code
        (Auto.stage_ctx [] (Auto.stage_pad (Auto.stage_role p)))) := by
    unfold Auto.stage_explain
    split
    · exact notSubBlockApp h2 (by decide) (by decide)
    · exact h2
  exact notSubBlockApp h3 (by decide) (by decide)

theorem ctxSubStageCtxMin {context : List Char} (hc : context.isEmpty = false)
    (e : List Char) :
    (CTX_MARK ++ context) <:+: Main.stage_ctx context e := by
  unfold Main.stage_ctx
  rw [hc]
  simp only [Bool.false_eq_true, if_false]
  refine ⟨e ++ ('\n' :: '\n' :: []), [], ?_⟩
  rw [List.append_nil]
  have hsplit : Main.CTX_HDR = ('\n' :: '\n' :: []) ++ CTX_MARK := rfl
  rw [hsplit]
  simp [List.append_assoc]

theorem ctxSubStageCtxExt {context : List Char} (hc : context.isEmpty = false)
    (e : List Char) :
    (CTX_MARK ++ context) <:+: Auto.stage_ctx context e := by
  unfold Auto.stage_ctx
  rw [hc]
  simp only [Bool.false_eq_true, if_false]
  refine ⟨e ++ ('\n' :: '\n' :: []), [], ?_⟩
  rw [List.append_nil]
  have hsplit : Auto.CTX_HDR = ('\n' :: '\n' :: []) ++ CTX_MARK := rfl
  rw [hsplit]
  simp [List.append_assoc]

theorem ctxPosMin (p context : List Char) (imps : List (List Char))
    (hc : context.isEmpty = false) :
    (CTX_MARK ++ context) <:+: Main.enhance_prompt_structure p context imps := by
  unfold Main.enhance_prompt_structure
  have hsub := ctxSubStageCtxMin hc (Main.stage_pad (Main.stage_role p))
  obtain ⟨r, hr⟩ := mainCodeExtends
    (Main.stage_ctx context (Main.stage_pad (Main.stage_role p)))
  rw [hr]
  exact subOfLeft (subOfLeft hsub r) _

theorem ctxPosExt (p context : List Char) (imps : List (List Char))
    (hc : context.isEmpty = false) :
    (CTX_MARK ++ context) <:+: Auto.enhance_prompt_structure p context imps := by
  unfold Auto.enhance_prompt_structure
  have hsub := ctxSubStageCtxExt hc (Auto.stage_pad (Auto.stage_role p))
  obtain ⟨r, hr⟩ := autoCodeExtends
    (Auto.stage_ctx context (Auto.stage_pad (Auto.stage_role p)))
  obtain ⟨r2, hr2⟩ := autoExplainExtends
    (Auto.stage_code (Auto.stage_ctx context (Auto.stage_pad (Auto.stage_role p))))
  rw [hr2, hr]
  exact subOfLeft (subOfLeft (subOfLeft hsub r) r2) _

/-- C2 counterexample: with empty context, the output for the prompt
"Context: alpha" contains the substring "Context:", contradicting the
claim's assertion that an empty context yields an output with no
"Context:" occurrence. -/
theorem claim2_counterexample :
    NCTX <:+: Main.enhance_prompt_structure ("Context: alpha").data [] [] := by
  decide

/-- C2 (amended): for every prompt, context and improvements list, in both
variants: if the context is non-empty the output contains the exact
substring "Context: " + context; if the context is empty and the prompt
itself contains no "Context:" substring, the output contains no "Context:"
substring.  (The proviso on the prompt is forced by
`claim2_counterexample`: the engine never removes prompt text.) -/
theorem claim2_context_inclusion (p context : List Char)
    (imps : List (List Char)) :
    (context ≠ [] →
      (CTX_MARK ++ context) <:+: Main.enhance_prompt_structure p context imps ∧
      (CTX_MARK ++ context) <:+: Auto.enhance_prompt_structure p context imps) ∧
    (¬ NCTX <:+: p →
      ¬ NCTX <:+: Main.enhance_prompt_structure p [] imps ∧
      ¬ NCTX <:+: Auto.enhance_prompt_structure p [] imps) := by
  constructor
  · intro hc
    have hcf : context.isEmpty = false := by
      cases context with
      | nil => exact absurd rfl hc
      | cons c t => rfl
    exact ⟨ctxPosMin p context imps hcf, ctxPosExt p context imps hcf⟩
  · intro hp
    exact ⟨noCtxMin p imps hp, noCtxExt p imps hp⟩

/-- C2 witness: both directions at concrete inputs — a non-empty context
"Java" appears as "Context: Java" in the output, and with empty context and
an innocent prompt the output has no "Context:" substring. -/
theorem claim2_witness :
    (CTX_MARK ++ ("Java").data) <:+:
      Main.enhance_prompt_structure ("hi").data ("Java").data [] ∧
    ¬ NCTX <:+: Auto.enhance_prompt_structure ("hi").data [] [] :=
  ⟨((claim2_context_inclusion ("hi").data ("Java").data []).1 (by decide)).1,
   ((claim2_context_inclusion ("hi").data [] []).2 (by decide)).2⟩
